import Mathlib

/-!
Verification of the multi-source sidecar-generation core of the
`data_upload` repository: the field-mapping merge
(`map_fields_from_sources`), the nested path resolver
(`F11Parser._get_nested_field`), the EEG JSON document builder
(`create_eeg_json`), the required-field validator (`validate_eeg_json`)
and the source adapters (`get_patient_f11_data`,
`extract_from_edf_header`, `extract_custom_fields`).

JSON-like values are modelled by the inductive type `Value`; Python
dictionaries are modelled as association lists (`List (String × α)`)
that preserve insertion order, with `lookupAL` for key lookup /
membership and `insertAL` for `d[k] = v` assignment (overwrite in
place, append if the key is new).
-/

/-- A Python/JSON value: None, bool, int, str, list or dict. -/
inductive Value where
  | null
  | bool (b : Bool)
  | int (n : Int)
  | str (s : String)
  | list (xs : List Value)
  | dict (entries : List (String × Value))

/-- Dictionary lookup: `d[k]` / `k in d`, first matching key. -/
def lookupAL {α : Type} : List (String × α) → String → Option α
  | [], _ => none
  | (k, v) :: rest, key => if k = key then some v else lookupAL rest key

/-- Dictionary assignment `d[k] = v`: overwrite the existing entry for
`k` in place, or append a new entry at the end. -/
def insertAL {α : Type} : List (String × α) → String → α → List (String × α)
  | [], key, v => [(key, v)]
  | (k, w) :: rest, key, v =>
    if k = key then (key, v) :: rest else (k, w) :: insertAL rest key v

/-- Left-biased choice on `Option` (used to express "later present value
wins" precedence). -/
def oOr {α : Type} (a b : Option α) : Option α :=
  match a with
  | some v => some v
  | none => b

/-- `str.split('.')` on the character list: Python splitting semantics,
`splitDotList [] = [[]]`, every occurrence of `'.'` starts a new segment. -/
def splitDotList : List Char → List (List Char)
  | [] => [[]]
  | c :: cs =>
    match splitDotList cs with
    | [] => [[c]]
    | seg :: segs => if c = '.' then [] :: seg :: segs else (c :: seg) :: segs

/-- Python `field_path.split('.')`, as used by `F11Parser._get_nested_field`
and `F11Parser.extract_custom_fields`. -/
def splitDot (s : String) : List String :=
  (splitDotList s.data).map (fun cs => String.mk cs)

/-- Python `field_path.split('.')[-1]` — the last dot segment of a path
(`split` never returns an empty list, so the default is never used). -/
def lastSeg (field_path : String) : String :=
  (splitDot field_path).getLastD ""

/-- The traversal loop of `F11Parser._get_nested_field`
(f11_parser.py lines 188-197): walk the parts; at each step, if the
current node is a dict containing the part, descend, otherwise return
None (`Value.null`). -/
def walkParts : Value → List String → Value
  | current, [] => current
  | current, part :: parts =>
    match current with
    | Value.dict entries =>
      match lookupAL entries part with
      | some v => walkParts v parts
      | none => Value.null
    | _ => Value.null

/-- `F11Parser._get_nested_field(data, field_path)`: get a nested field
using dot notation, `None` if not found (f11_parser.py lines 177-197). -/
def _get_nested_field (data : Value) (field_path : String) : Value :=
  walkParts data (splitDot field_path)

/-- Modelled from the spec (§4.1 Path Resolver), for comparison with the
code: walks segments against the mapping and returns the addressed value,
or `none` (Absent) as soon as a traversed node is not a mapping or a
segment key is not present. -/
def resolveSpec : Value → List String → Option Value
  | current, [] => some current
  | current, part :: parts =>
    match current with
    | Value.dict entries =>
      match lookupAL entries part with
      | some v => resolveSpec v parts
      | none => none
    | _ => none

/-- One entry of the `field_mapping_config` list passed to
`map_fields_from_sources`: a source name and an ordered
`output_field → source_field` association (`source_config.get("source")`,
`source_config.get("field_mapping", ...)`). -/
structure MappingRule where
  source : String
  field_mapping : List (String × String)

/-- The hard-coded alias table of `map_fields_from_sources`
(create_eeg_json.py lines 55-59) mapping configuration source names to
keys of `source_data_dict`. -/
def source_key_mapping : List (String × String) :=
  [("edf_header", "edf"), ("f11_form", "f11"), ("xml_annotations", "xml")]

/-- The source-availability check of `map_fields_from_sources`
(lines 61-62): `source_key_mapping.get(source_name)` followed by
`source_key in source_data_dict`; `none` when either step fails. -/
def sourceDataFor (source_data_dict : List (String × List (String × Value)))
    (source_name : String) : Option (List (String × Value)) :=
  match lookupAL source_key_mapping source_name with
  | none => none
  | some source_key => lookupAL source_data_dict source_key

/-- The inner loop of `map_fields_from_sources` (lines 65-70): for each
`(bids_field, source_field)` pair, if `source_field in source_data` then
`mapped_fields[bids_field] = source_data[source_field]`. -/
def applyPairs (source_data : List (String × Value))
    (mapped_fields : List (String × Value))
    (pairs : List (String × String)) : List (String × Value) :=
  pairs.foldl
    (fun mapped p =>
      match lookupAL source_data p.2 with
      | some v => insertAL mapped p.1 v
      | none => mapped)
    mapped_fields

/-- Processing of one `source_config` entry by `map_fields_from_sources`:
skip the rule entirely when its source is unavailable, otherwise apply
its field mapping. -/
def applyRule (source_data_dict : List (String × List (String × Value)))
    (mapped_fields : List (String × Value)) (rule : MappingRule) :
    List (String × Value) :=
  match sourceDataFor source_data_dict rule.source with
  | none => mapped_fields
  | some source_data => applyPairs source_data mapped_fields rule.field_mapping

/-- `map_fields_from_sources(source_data_dict, field_mapping_config)`
(create_eeg_json.py lines 26-72): fold the rules, in order, over an
initially empty `mapped_fields` dictionary. -/
def map_fields_from_sources
    (source_data_dict : List (String × List (String × Value)))
    (field_mapping_config : List MappingRule) : List (String × Value) :=
  field_mapping_config.foldl (applyRule source_data_dict) []

/-- The value a single `(bids_field, source_field)` pair contributes to
output field `F`: the flat lookup of `source_field` when `bids_field = F`,
`none` otherwise. -/
def pairResolve (source_data : List (String × Value)) (F : String)
    (p : String × String) : Option Value :=
  if p.1 = F then lookupAL source_data p.2 else none

/-- The value a rule's `field_mapping` contributes to output field `F`
(the last present pair for `F` wins within the rule). -/
def pairsResolve (source_data : List (String × Value)) (F : String)
    (pairs : List (String × String)) : Option Value :=
  pairs.foldl (fun o p => oOr (pairResolve source_data F p) o) none

/-- The value one rule contributes to output field `F`: `none` when the
rule's source is unavailable or no pair for `F` resolves to a present
value. -/
def resolveRuleField (source_data_dict : List (String × List (String × Value)))
    (rule : MappingRule) (F : String) : Option Value :=
  match sourceDataFor source_data_dict rule.source with
  | none => none
  | some source_data => pairsResolve source_data F rule.field_mapping

/-- The "last rule that yields a present value wins" resolution of an
output field over a whole rule list. -/
def lastWins (source_data_dict : List (String × List (String × Value)))
    (rules : List MappingRule) (F : String) : Option Value :=
  rules.foldl (fun o r => oOr (resolveRuleField source_data_dict r F) o) none

/-- Python `d.get(key, default)`. -/
def dget (d : List (String × Value)) (key : String) (default : Value) : Value :=
  (lookupAL d key).getD default

/-- The key set of the EEG JSON document literal built by
`create_eeg_json` (lines 147-183), in declaration order. -/
def eeg_json_schema_fields : List String :=
  ["TaskName", "SamplingFrequency", "PowerLineFrequency", "SoftwareFilters",
   "RecordingDuration", "RecordingType", "EEGReference", "EEGGround",
   "InstitutionName", "InstitutionAddress", "Manufacturer",
   "ManufacturersModelName", "SoftwareVersions",
   "SubjectArtefactDescription", "HowManyBadChannels", "EEGChannelCount",
   "_dev_info"]

/-- The BIDS EEG JSON structure built by `create_eeg_json`
(create_eeg_json.py lines 147-183): for every field, the mapped value
when present, otherwise the hard-coded fallback (a direct metadata
access or a constant). -/
def eeg_json (mapped_fields edf_metadata f11_metadata : List (String × Value)) :
    List (String × Value) :=
  [("TaskName", dget mapped_fields "TaskName"
      (dget f11_metadata "task_description" (Value.str "rest"))),
   ("SamplingFrequency", dget mapped_fields "SamplingFrequency"
      (dget edf_metadata "sampling_frequency" Value.null)),
   ("PowerLineFrequency", dget mapped_fields "PowerLineFrequency" (Value.int 60)),
   ("SoftwareFilters", dget mapped_fields "SoftwareFilters" (Value.str "n/a")),
   ("RecordingDuration", dget mapped_fields "RecordingDuration"
      (dget edf_metadata "recording_duration" Value.null)),
   ("RecordingType", dget mapped_fields "RecordingType" (Value.str "continuous")),
   ("EEGReference", dget mapped_fields "EEGReference"
      (dget edf_metadata "reference" (Value.str ""))),
   ("EEGGround", dget mapped_fields "EEGGround"
      (dget edf_metadata "ground" (Value.str ""))),
   ("InstitutionName", dget mapped_fields "InstitutionName"
      (dget f11_metadata "institution" Value.null)),
   ("InstitutionAddress", dget mapped_fields "InstitutionAddress"
      (dget f11_metadata "institution_address" (Value.str ""))),
   ("Manufacturer", dget mapped_fields "Manufacturer"
      (dget f11_metadata "equipment_manufacturer" Value.null)),
   ("ManufacturersModelName", dget mapped_fields "ManufacturersModelName"
      (dget f11_metadata "equipment_model" Value.null)),
   ("SoftwareVersions", dget mapped_fields "SoftwareVersions"
      (dget edf_metadata "software_version" (Value.str ""))),
   ("SubjectArtefactDescription",
      dget mapped_fields "SubjectArtefactDescription" (Value.str "")),
   ("HowManyBadChannels", dget mapped_fields "HowManyBadChannels" (Value.int 0)),
   ("EEGChannelCount", dget mapped_fields "EEGChannelCount"
      (dget edf_metadata "number_of_channels" Value.null)),
   ("_dev_info", Value.dict
      [("note", Value.str
          "Field mapping system active - remove this section when fully implemented"),
       ("mapped_fields_used",
          Value.list (mapped_fields.map (fun p => Value.str p.1))),
       ("available_edf_fields",
          Value.list (edf_metadata.map (fun p => Value.str p.1))),
       ("available_f11_fields",
          Value.list (f11_metadata.map (fun p => Value.str p.1)))])]

/-- The per-field missing test of `validate_eeg_json` (line 218):
`field not in eeg_json or eeg_json[field] is None or eeg_json[field] == ""`. -/
def field_missing (doc : List (String × Value)) (field : String) : Bool :=
  match lookupAL doc field with
  | none => true
  | some Value.null => true
  | some (Value.str s) => s = ""
  | some _ => false

/-- `validate_eeg_json` (create_eeg_json.py lines 214-225): the
`missing_fields` list it builds — the required fields, in required-field
order, whose value is absent, None or the empty string. -/
def validate_eeg_json (doc : List (String × Value))
    (required_fields : List String) : List String :=
  required_fields.filter (field_missing doc)

/-- The placeholder F11 data structure built by
`F11Parser.get_patient_f11_data` (f11_parser.py lines 67-92). -/
def f11_data : Value :=
  Value.dict
    [("demographics", Value.dict
        [("age", Value.null), ("sex", Value.null), ("handedness", Value.null),
         ("date_of_birth", Value.null)]),
     ("recording_parameters", Value.dict
        [("task_description", Value.str "resting state EEG"),
         ("institution", Value.null), ("equipment_manufacturer", Value.null),
         ("equipment_model", Value.null), ("sampling_rate", Value.null),
         ("recording_duration", Value.null)]),
     ("clinical_info", Value.dict
        [("diagnosis", Value.null), ("medications", Value.null),
         ("clinical_notes", Value.null)]),
     ("study_info", Value.dict
        [("visit_date", Value.null), ("visit_type", Value.null),
         ("protocol_version", Value.null)])]

/-- `F11Parser.get_patient_f11_data(patient_id)` (f11_parser.py lines
45-96), with the parser's `cached_data` dictionary made explicit:
return the cached entry if present, otherwise build the placeholder
data, cache it under `patient_id` and return it. -/
def get_patient_f11_data (cached_data : List (String × Value))
    (patient_id : String) : Value × List (String × Value) :=
  match lookupAL cached_data patient_id with
  | some d => (d, cached_data)
  | none => (f11_data, insertAL cached_data patient_id f11_data)

/-- `F11Parser.extract_custom_fields(patient_id, field_list)`
(f11_parser.py lines 155-175): for each requested path, resolve it with
`_get_nested_field` and store the value under the last part of the path. -/
def extract_custom_fields (cached_data : List (String × Value))
    (patient_id : String) (field_list : List String) : List (String × Value) :=
  field_list.foldl
    (fun result field_path =>
      insertAL result (lastSeg field_path)
        (_get_nested_field (get_patient_f11_data cached_data patient_id).1 field_path))
    []

/-- `_get_placeholder_metadata()` (edf_header_parser.py lines 52-74). -/
def _get_placeholder_metadata : List (String × Value) :=
  [("sampling_frequency", Value.null), ("recording_duration", Value.null),
   ("recording_start_time", Value.null), ("number_of_channels", Value.null),
   ("channel_names", Value.null), ("channel_units", Value.null),
   ("digital_minimum", Value.null), ("digital_maximum", Value.null),
   ("physical_minimum", Value.null), ("physical_maximum", Value.null),
   ("prefiltering", Value.null), ("patient_info", Value.null),
   ("recording_info", Value.null), ("equipment_info", Value.null)]

/-- `extract_from_edf_header(edf_file_path)` (edf_header_parser.py lines
15-49): whether or not the file exists, the current stub returns the
placeholder metadata (the file-exists check only selects the warning
that is printed). -/
def extract_from_edf_header (file_exists : Bool) : List (String × Value) :=
  if file_exists = false then _get_placeholder_metadata
  else _get_placeholder_metadata

theorem oOr_none {α : Type} (a : Option α) : oOr a none = a := by
  cases a <;> rfl

theorem none_oOr {α : Type} (b : Option α) : oOr none b = b := rfl

theorem oOr_assoc {α : Type} (a b c : Option α) :
    oOr (oOr a b) c = oOr a (oOr b c) := by
  cases a <;> rfl

theorem lookupAL_insertAL {α : Type} (al : List (String × α)) (k : String)
    (v : α) (key : String) :
    lookupAL (insertAL al k v) key = if k = key then some v else lookupAL al key := by
  induction al with
  | nil => simp [insertAL, lookupAL]
  | cons hd tl ih =>
    obtain ⟨k2, w⟩ := hd
    by_cases h1 : k2 = k
    · subst h1
      by_cases h2 : k2 = key
      · subst h2; simp [insertAL, lookupAL]
      · simp [insertAL, lookupAL, h2]
    · by_cases h2 : k2 = key
      · subst h2
        have hk : ¬ (k = k2) := fun h => h1 h.symm
        simp [insertAL, lookupAL, h1, hk]
      · simp [insertAL, lookupAL, h1, h2, ih]

theorem length_insertAL {α : Type} (al : List (String × α)) (k : String) (v : α) :
    (insertAL al k v).length ≤ al.length + 1 := by
  induction al with
  | nil => simp [insertAL]
  | cons hd tl ih =>
    obtain ⟨k2, w⟩ := hd
    by_cases h : k2 = k
    · simp [insertAL, h]
    · simp only [insertAL, h, if_false, ite_false, List.length_cons]
      omega

theorem foldl_oOr_factor {α β : Type} (g : β → Option α) (l : List β)
    (o : Option α) :
    l.foldl (fun acc b => oOr (g b) acc) o
      = oOr (l.foldl (fun acc b => oOr (g b) acc) none) o := by
  induction l generalizing o with
  | nil => simp [none_oOr]
  | cons b l ih =>
    simp only [List.foldl_cons]
    rw [ih (oOr (g b) o), ih (oOr (g b) none), oOr_none, oOr_assoc]

theorem pairsResolve_cons (sd : List (String × Value)) (F : String)
    (p : String × String) (ps : List (String × String)) :
    pairsResolve sd F (p :: ps) = oOr (pairsResolve sd F ps) (pairResolve sd F p) := by
  unfold pairsResolve
  simp only [List.foldl_cons]
  rw [foldl_oOr_factor, oOr_none]

theorem lastWins_cons (sdd : List (String × List (String × Value)))
    (r : MappingRule) (rs : List MappingRule) (F : String) :
    lastWins sdd (r :: rs) F
      = oOr (lastWins sdd rs F) (resolveRuleField sdd r F) := by
  unfold lastWins
  simp only [List.foldl_cons]
  rw [foldl_oOr_factor, oOr_none]

theorem lookupAL_applyPairs (pairs : List (String × String))
    (sd acc : List (String × Value)) (F : String) :
    lookupAL (applyPairs sd acc pairs) F
      = oOr (pairsResolve sd F pairs) (lookupAL acc F) := by
  induction pairs generalizing acc with
  | nil => simp [applyPairs, pairsResolve, none_oOr]
  | cons p ps ih =>
    rw [pairsResolve_cons, oOr_assoc]
    show lookupAL (applyPairs sd _ ps) F = _
    rw [ih]
    congr 1
    cases hp : lookupAL sd p.2 with
    | none => simp [pairResolve, hp, oOr]
    | some v =>
      by_cases hf : p.1 = F
      · simp [pairResolve, hp, hf, lookupAL_insertAL, oOr]
      · simp [pairResolve, hp, hf, lookupAL_insertAL, oOr]

theorem lookupAL_applyRule (sdd : List (String × List (String × Value)))
    (acc : List (String × Value)) (r : MappingRule) (F : String) :
    lookupAL (applyRule sdd acc r) F
      = oOr (resolveRuleField sdd r F) (lookupAL acc F) := by
  unfold applyRule resolveRuleField
  cases sourceDataFor sdd r.source with
  | none => simp [none_oOr]
  | some sd => exact lookupAL_applyPairs r.field_mapping sd acc F

theorem lookupAL_foldl_applyRule (sdd : List (String × List (String × Value)))
    (rules : List MappingRule) (acc : List (String × Value)) (F : String) :
    lookupAL (rules.foldl (applyRule sdd) acc) F
      = oOr (lastWins sdd rules F) (lookupAL acc F) := by
  induction rules generalizing acc with
  | nil => simp [lastWins, none_oOr]
  | cons r rs ih =>
    simp only [List.foldl_cons]
    rw [ih, lookupAL_applyRule, lastWins_cons, oOr_assoc]

theorem lookupAL_map_fields (sdd : List (String × List (String × Value)))
    (rules : List MappingRule) (F : String) :
    lookupAL (map_fields_from_sources sdd rules) F = lastWins sdd rules F := by
  unfold map_fields_from_sources
  rw [lookupAL_foldl_applyRule]
  simp [lookupAL, oOr_none]

theorem walkParts_eq_resolveSpec (parts : List String) (data : Value) :
    walkParts data parts = (resolveSpec data parts).getD Value.null := by
  induction parts generalizing data with
  | nil => rfl
  | cons p ps ih =>
    cases data with
    | dict entries =>
      cases h : lookupAL entries p with
      | none => simp [walkParts, resolveSpec, h]
      | some v => simp [walkParts, resolveSpec, h, ih]
    | null => rfl
    | bool b => rfl
    | int n => rfl
    | str s => rfl
    | list xs => rfl

theorem field_missing_iff (doc : List (String × Value)) (f : String) :
    field_missing doc f = true
      ↔ (lookupAL doc f = none ∨ lookupAL doc f = some Value.null
          ∨ lookupAL doc f = some (Value.str "")) := by
  cases h : lookupAL doc f with
  | none => simp [field_missing, h]
  | some v => cases v <;> simp [field_missing, h]

/-- C6: for every nested mapping and every dotted path, the Path Resolver
(`_get_nested_field`) returns the addressed value, and returns the absent
sentinel (None) — never an exception, the Lean model being total — whenever
any path segment's key is not present at the current node or the node
reached during traversal is not a mapping: it coincides with the spec's
resolver `resolveSpec` with `none` collapsed to `Value.null`. -/
theorem c6_path_resolver_total (data : Value) (path : String) :
    _get_nested_field data path
      = (resolveSpec data (splitDot path)).getD Value.null :=
  walkParts_eq_resolveSpec (splitDot path) data

/-- C8 counterexample: the Path Resolver applied to the empty path does
NOT return Absent for every mapping — on a mapping containing the
empty-string key, `_get_nested_field` returns that key's value (Python
`"".split('.')` is `[""]`, so the empty path is the single segment `""`). -/
theorem c8_counterexample :
    _get_nested_field (Value.dict [("", Value.int 42)]) "" = Value.int 42
      ∧ Value.int 42 ≠ Value.null :=
  ⟨rfl, fun h => Value.noConfusion h⟩

/-- C8 (amended): applied to the empty path, the Path Resolver treats the
path as the single segment `""`: on a mapping it returns the value stored
under the key `""` when present and Absent (None) otherwise, and on a
non-mapping it returns Absent. -/
theorem c8_amended_empty_path (data : Value) :
    _get_nested_field data ""
      = (match data with
         | Value.dict entries => (lookupAL entries "").getD Value.null
         | _ => Value.null) := by
  have hsplit : splitDot "" = [""] := rfl
  unfold _get_nested_field
  rw [hsplit]
  cases data with
  | dict entries =>
    cases h : lookupAL entries "" with
    | none => simp [walkParts, h]
    | some v => simp [walkParts, h]
  | null => rfl
  | bool b => rfl
  | int n => rfl
  | str s => rfl
  | list xs => rfl

/-- C9: source adapters are read-idempotent — two successive calls of
`get_patient_f11_data` with the same `patient_id` (threading the cache of
the first call into the second) return equal data, and two calls of
`extract_from_edf_header` return equal metadata regardless of the
file-existence outcome observed by each call. -/
theorem c9_read_idempotent (cached_data : List (String × Value))
    (patient_id : String) (e1 e2 : Bool) :
    (get_patient_f11_data (get_patient_f11_data cached_data patient_id).2
        patient_id).1
      = (get_patient_f11_data cached_data patient_id).1
    ∧ extract_from_edf_header e1 = extract_from_edf_header e2 := by
  constructor
  · cases h : lookupAL cached_data patient_id with
    | some d => simp [get_patient_f11_data, h]
    | none => simp [get_patient_f11_data, h, lookupAL_insertAL]
  · cases e1 <;> cases e2 <;> rfl

/-- C1: in `map_fields_from_sources`, a later rule whose resolution for an
output field is absent (unavailable source, no pair for the field, or a
source field not present in the source data) leaves the value set for that
field by the earlier rules untouched: the merged value is still the
earlier rules' value. -/
theorem c1_later_absent_preserves_earlier_value
    (source_data_dict : List (String × List (String × Value)))
    (rules : List MappingRule) (rule2 : MappingRule) (F : String) (v : Value)
    (h1 : lookupAL (map_fields_from_sources source_data_dict rules) F = some v)
    (h2 : resolveRuleField source_data_dict rule2 F = none) :
    lookupAL (map_fields_from_sources source_data_dict (rules ++ [rule2])) F
      = some v := by
  unfold map_fields_from_sources at h1 ⊢
  rw [List.foldl_append]
  simp only [List.foldl_cons, List.foldl_nil]
  rw [lookupAL_applyRule, h2, none_oOr]
  exact h1

/-- C1 witness: rule 1 (f11_form) resolves TaskName to "resting"; the
later rule 2 (edf_header) maps TaskName to a source field absent from the
EDF data; the merged TaskName is still "resting". -/
theorem c1_witness :
    lookupAL (map_fields_from_sources
        [("f11", [("task_description", Value.str "resting")]),
         ("edf", [("sampling_frequency", Value.null)])]
        ([⟨"f11_form", [("TaskName", "task_description")]⟩]
          ++ [⟨"edf_header", [("TaskName", "missing_field")]⟩]))
      "TaskName" = some (Value.str "resting") :=
  c1_later_absent_preserves_earlier_value _ _ _ _ _ rfl rfl

/-- C7: a rule whose source name has no corresponding entry in the
supplied source mappings (no alias in `source_key_mapping`, or an alias
key missing from `source_data_dict`) contributes nothing to the merged
output and all remaining rules are still applied: the merge equals the
merge with the rule removed. -/
theorem c7_unknown_source_skipped
    (source_data_dict : List (String × List (String × Value)))
    (rules1 rules2 : List MappingRule) (rule : MappingRule)
    (h : sourceDataFor source_data_dict rule.source = none) :
    map_fields_from_sources source_data_dict (rules1 ++ rule :: rules2)
      = map_fields_from_sources source_data_dict (rules1 ++ rules2) := by
  unfold map_fields_from_sources
  rw [List.foldl_append, List.foldl_append]
  simp only [List.foldl_cons]
  congr 1
  unfold applyRule
  rw [h]

/-- C7 witness: a rule naming `xml_annotations` with no `"xml"` entry in
the source data contributes nothing; the following `f11_form` rule is
still applied. -/
theorem c7_witness :
    map_fields_from_sources [("f11", [("task_description", Value.str "resting")])]
        ([] ++ (⟨"xml_annotations", [("TaskName", "task_description")]⟩ : MappingRule)
          :: [⟨"f11_form", [("TaskName", "task_description")]⟩])
      = map_fields_from_sources [("f11", [("task_description", Value.str "resting")])]
          ([] ++ [⟨"f11_form", [("TaskName", "task_description")]⟩]) :=
  c7_unknown_source_skipped _ [] _ _ rfl

/-- C2 counterexample: `map_fields_from_sources` does NOT resolve
`source_field_path` as a dot-separated nested path: with a source mapping
holding `"UCL"` at the nested path `recording_parameters.institution`,
the merge of a rule naming that path produces nothing (the dotted string
is used as a single flat top-level key), although the repository's own
Path Resolver (`_get_nested_field`) resolves that very path to `"UCL"`. -/
theorem c2_counterexample :
    map_fields_from_sources
        [("f11", [("recording_parameters",
            Value.dict [("institution", Value.str "UCL")])])]
        [⟨"f11_form", [("InstitutionName", "recording_parameters.institution")]⟩]
      = []
    ∧ _get_nested_field
        (Value.dict [("recording_parameters",
            Value.dict [("institution", Value.str "UCL")])])
        "recording_parameters.institution" = Value.str "UCL" :=
  ⟨rfl, rfl⟩

/-- C2 (amended): each `source_field` in a rule's `field_mapping` is used
as a single flat top-level key of the source mapping (a membership test
followed by direct indexing); `_get_nested_field` is never invoked by the
merge, so a dotted path only matches a literal top-level key equal to the
whole dotted string. -/
theorem c2_amended_flat_key_lookup
    (source_data_dict : List (String × List (String × Value)))
    (source_name source_key : String) (source_data : List (String × Value))
    (bids_field source_field : String)
    (h1 : lookupAL source_key_mapping source_name = some source_key)
    (h2 : lookupAL source_data_dict source_key = some source_data) :
    map_fields_from_sources source_data_dict
        [⟨source_name, [(bids_field, source_field)]⟩]
      = (match lookupAL source_data source_field with
         | some v => [(bids_field, v)]
         | none => []) := by
  have hs : sourceDataFor source_data_dict source_name = some source_data := by
    unfold sourceDataFor
    rw [h1]
    exact h2
  unfold map_fields_from_sources
  simp only [List.foldl_cons, List.foldl_nil]
  simp only [applyRule, hs]
  unfold applyPairs
  simp only [List.foldl_cons, List.foldl_nil]
  cases lookupAL source_data source_field with
  | some v => rfl
  | none => rfl

/-- C2 witness: the flat key "task_description" is found at the top level
of the f11 source data and is mapped to TaskName. -/
theorem c2_witness :
    map_fields_from_sources [("f11", [("task_description", Value.str "resting")])]
        [⟨"f11_form", [("TaskName", "task_description")]⟩]
      = [("TaskName", Value.str "resting")] :=
  c2_amended_flat_key_lookup
    [("f11", [("task_description", Value.str "resting")])]
    "f11_form" "f11" [("task_description", Value.str "resting")]
    "TaskName" "task_description" rfl rfl

/-- C3 counterexample: `map_fields_from_sources` does NOT return a
provenance record alongside the merged mapping — its entire return value
for two configurations with different provenance (source `f11_form`, path
`task_description` versus source `edf_header`, path `td2`) is the same
bare field-to-value mapping, carrying no `(source_name, source_path)`
information. -/
theorem c3_counterexample :
    map_fields_from_sources
        [("f11", [("task_description", Value.str "resting")]),
         ("edf", [("td2", Value.str "resting")])]
        [⟨"f11_form", [("TaskName", "task_description")]⟩]
      = [("TaskName", Value.str "resting")]
    ∧ map_fields_from_sources
        [("f11", [("task_description", Value.str "resting")]),
         ("edf", [("td2", Value.str "resting")])]
        [⟨"edf_header", [("TaskName", "td2")]⟩]
      = [("TaskName", Value.str "resting")] :=
  ⟨rfl, rfl⟩

/-- C3 (amended): the merge returns only the merged output mapping (the
per-field provenance is printed, not returned); each output field of the
result is the flat-resolved value of the last rule that resolved it to a
present value, and fields no rule resolved are absent. -/
theorem c3_amended_merged_only_last_present_wins
    (source_data_dict : List (String × List (String × Value)))
    (rules : List MappingRule) (F : String) :
    lookupAL (map_fields_from_sources source_data_dict rules) F
      = lastWins source_data_dict rules F :=
  lookupAL_map_fields source_data_dict rules F

/-- C4: for every merged mapping and source metadata, the document built
by `create_eeg_json` has key set exactly `eeg_json_schema_fields`, in the
schema's declared order — so every schema field is present and no field
outside the schema is ever included, even when the merged mapping
contains extra keys — and every schema field other than the `_dev_info`
diagnostic block takes the merged value whenever the merged mapping
provides one. -/
theorem c4_schema_closure (mapped_fields edf_metadata f11_metadata :
    List (String × Value)) :
    (eeg_json mapped_fields edf_metadata f11_metadata).map Prod.fst
        = eeg_json_schema_fields
    ∧ ∀ k v, k ∈ eeg_json_schema_fields → k ≠ "_dev_info" →
        lookupAL mapped_fields k = some v →
        lookupAL (eeg_json mapped_fields edf_metadata f11_metadata) k
          = some v := by
  constructor
  · rfl
  · intro k v hk hne hm
    simp only [eeg_json_schema_fields, List.mem_cons,
      List.not_mem_nil, or_false] at hk
    rcases hk with rfl | rfl | rfl | rfl | rfl | rfl | rfl | rfl | rfl |
      rfl | rfl | rfl | rfl | rfl | rfl | rfl | rfl
    all_goals first
      | exact absurd rfl hne
      | simp [eeg_json, lookupAL, dget, hm]

/-- C4 witness: with a merged mapping providing TaskName, the built
document's key list is exactly the schema and TaskName carries the merged
value. -/
theorem c4_witness :
    (eeg_json [("TaskName", Value.str "hello")] [] []).map Prod.fst
        = eeg_json_schema_fields
    ∧ lookupAL (eeg_json [("TaskName", Value.str "hello")] [] []) "TaskName"
        = some (Value.str "hello") := by
  have h := c4_schema_closure [("TaskName", Value.str "hello")] [] []
  exact ⟨h.1, h.2 "TaskName" (Value.str "hello") (by decide) (by decide) rfl⟩

/-- C5: the validator's missing-field list contains exactly those
required fields that are absent from the document or hold None or the
empty string, and it is a sublist of `required_fields` (hence in
required-field order, not document order). -/
theorem c5_validator_missing_fields (doc : List (String × Value))
    (required_fields : List String) :
    List.Sublist (validate_eeg_json doc required_fields) required_fields
    ∧ ∀ f, f ∈ validate_eeg_json doc required_fields
        ↔ (f ∈ required_fields
            ∧ (lookupAL doc f = none ∨ lookupAL doc f = some Value.null
                ∨ lookupAL doc f = some (Value.str ""))) := by
  constructor
  · exact List.filter_sublist required_fields
  · intro f
    unfold validate_eeg_json
    rw [List.mem_filter, field_missing_iff]

/-- C5 witness: against a document where SamplingFrequency is None, the
validator's list is a sublist of the required fields and contains
SamplingFrequency. -/
theorem c5_witness :
    List.Sublist
        (validate_eeg_json
          [("TaskName", Value.str "rest"), ("SamplingFrequency", Value.null)]
          ["TaskName", "SamplingFrequency"])
        ["TaskName", "SamplingFrequency"]
    ∧ "SamplingFrequency" ∈ validate_eeg_json
        [("TaskName", Value.str "rest"), ("SamplingFrequency", Value.null)]
        ["TaskName", "SamplingFrequency"] := by
  have h := c5_validator_missing_fields
    [("TaskName", Value.str "rest"), ("SamplingFrequency", Value.null)]
    ["TaskName", "SamplingFrequency"]
  exact ⟨h.1, (h.2 "SamplingFrequency").mpr
    ⟨by decide, Or.inr (Or.inl rfl)⟩⟩

theorem lookupAL_foldl_insert {β : Type} (keyOf : β → String)
    (valOf : β → Value) (l : List β) (acc : List (String × Value))
    (k : String) :
    lookupAL (l.foldl (fun a b => insertAL a (keyOf b) (valOf b)) acc) k
      = oOr ((l.reverse.find? (fun b => keyOf b == k)).map valOf)
          (lookupAL acc k) := by
  induction l generalizing acc with
  | nil => simp [oOr]
  | cons b l ih =>
    simp only [List.foldl_cons, List.reverse_cons]
    rw [ih, List.find?_append]
    cases hf : l.reverse.find? (fun b2 => keyOf b2 == k) with
    | some q => simp [oOr, Option.or]
    | none =>
      by_cases hb : keyOf b = k
      · simp [oOr, Option.or, lookupAL_insertAL, hb, List.find?]
      · have hbb : (keyOf b == k) = false := by simp [hb]
        simp [oOr, Option.or, lookupAL_insertAL, hb, List.find?, hbb]

theorem length_foldl_insert {β : Type} (keyOf : β → String)
    (valOf : β → Value) (l : List β) (acc : List (String × Value)) :
    (l.foldl (fun a b => insertAL a (keyOf b) (valOf b)) acc).length
      ≤ acc.length + l.length := by
  induction l generalizing acc with
  | nil => simp
  | cons b l ih =>
    simp only [List.foldl_cons, List.length_cons]
    have h1 := ih (insertAL acc (keyOf b) (valOf b))
    have h2 := length_insertAL acc (keyOf b) (valOf b)
    omega

theorem lookupAL_extract_custom_fields (cached_data : List (String × Value))
    (patient_id : String) (field_list : List String) (k : String) :
    lookupAL (extract_custom_fields cached_data patient_id field_list) k
      = (field_list.reverse.find? (fun q => lastSeg q == k)).map
          (fun fp =>
            _get_nested_field (get_patient_f11_data cached_data patient_id).1 fp) := by
  unfold extract_custom_fields
  rw [lookupAL_foldl_insert lastSeg
    (fun fp =>
      _get_nested_field (get_patient_f11_data cached_data patient_id).1 fp)
    field_list [] k]
  simp [lookupAL, oOr_none]

/-- C10: the result of `extract_custom_fields` has exactly the final
dot-segments of the requested paths as keys; the value stored under a
key is the resolution of the LAST requested path with that final segment
(later paths overwrite earlier ones sharing a final segment); and the
result can therefore have fewer entries than the requested path list. -/
theorem c10_extract_custom_fields_keys (cached_data : List (String × Value))
    (patient_id : String) (field_list : List String) (k : String) :
    ((lookupAL (extract_custom_fields cached_data patient_id field_list) k).isSome
        ↔ k ∈ field_list.map lastSeg)
    ∧ (∀ p, field_list.reverse.find? (fun q => lastSeg q == k) = some p →
        lookupAL (extract_custom_fields cached_data patient_id field_list) k
          = some (_get_nested_field
              (get_patient_f11_data cached_data patient_id).1 p))
    ∧ (extract_custom_fields cached_data patient_id field_list).length
        ≤ field_list.length := by
  refine ⟨?_, ?_, ?_⟩
  · rw [lookupAL_extract_custom_fields]
    simp [Option.isSome_map', List.find?_isSome, List.mem_reverse,
      beq_iff_eq, List.mem_map]
  · intro p hp
    rw [lookupAL_extract_custom_fields, hp]
    rfl
  · unfold extract_custom_fields
    have h := length_foldl_insert lastSeg
      (fun fp =>
        _get_nested_field (get_patient_f11_data cached_data patient_id).1 fp)
      field_list []
    simpa using h

/-- C10 witness: requesting `demographics.age` and `clinical_info.age`
(same final segment `age`) yields a single-key result whose `age` entry is
the resolution of the later path, and the result has fewer entries than
the two requested paths. -/
theorem c10_witness :
    (lookupAL (extract_custom_fields [] "13UL"
        ["demographics.age", "clinical_info.age"]) "age").isSome
    ∧ lookupAL (extract_custom_fields [] "13UL"
        ["demographics.age", "clinical_info.age"]) "age"
        = some (_get_nested_field (get_patient_f11_data [] "13UL").1
            "clinical_info.age")
    ∧ (extract_custom_fields [] "13UL"
        ["demographics.age", "clinical_info.age"]).length ≤ 2 := by
  have h := c10_extract_custom_fields_keys [] "13UL"
    ["demographics.age", "clinical_info.age"] "age"
  exact ⟨h.1.mpr (by decide), h.2.1 "clinical_info.age" (by decide), h.2.2⟩
